import Mathlib

/-!
# Verification of the RKF stepping engine of `bifrost-rust`

Shallow embedding of `src/tracing/stepping/rkf.rs` (and the surrounding
`src/tracing/stepping.rs` types).  Floating-point numbers (`ftr = f64`) are
modelled as exact rationals `ℚ`; the inexact operations `sqrt`, `powf` and
vector normalisation, as well as the scheme-specific trait methods
(`attempt_step`, `compute_error_deltas`, dense interpolation) and the
field/grid/interpolator stack, are abstracted into an explicit environment
record, since their implementations live outside the stepping module.
Control flow, state mutation and all comparisons are translated literally
from the source.
-/

namespace Bifrost

/-- 3D vector over the rational model of `ftr` (`geometry::Vec3<ftr>`).
Points (`geometry::Point3<ftr>`) are identified with vectors. -/
structure Vec3 where
  x : ℚ
  y : ℚ
  z : ℚ
deriving DecidableEq, Repr

/-- `geometry::Point3<ftr>`, identified with `Vec3`. -/
abbrev Point3 := Vec3

namespace Vec3

/-- `Vec3::zero`. -/
def zero : Vec3 := ⟨0, 0, 0⟩

/-- `Vec3::is_zero`. -/
def is_zero (v : Vec3) : Bool := v == ⟨0, 0, 0⟩

/-- `Vec3::dot`. -/
def dot (v w : Vec3) : ℚ := v.x * w.x + v.y * w.y + v.z * w.z

/-- `Vec3::squared_length`. -/
def squared_length (v : Vec3) : ℚ := v.x * v.x + v.y * v.y + v.z * v.z

/-- Vector negation. -/
def neg (v : Vec3) : Vec3 := ⟨-v.x, -v.y, -v.z⟩

end Vec3

/-- `stepping::StoppingCause`: reason for terminating stepping. -/
inductive StoppingCause where
  | Null
  | Sink
  | OutOfBounds
  | TooManyAttempts
  | StoppedByCallback
deriving DecidableEq, Repr

/-- `stepping::StepperResult<T>`. -/
inductive StepperResult (α : Type) where
  | Ok (value : α)
  | Stopped (cause : StoppingCause)
deriving DecidableEq, Repr

/-- `stepping::StepperInstruction`: callback's continue/terminate signal. -/
inductive StepperInstruction where
  | Continue
  | Terminate
deriving DecidableEq, Repr

/-- `interpolation::InterpResult3` as used by the stepper: an interpolated
vector or an out-of-bounds outcome. -/
inductive InterpResult3 where
  | Ok (vec : Vec3)
  | OutOfBounds
deriving DecidableEq, Repr

/-- `rkf::RKFStepperConfig`. -/
structure RKFStepperConfig where
  dense_step_size : ℚ
  max_step_attempts : ℕ
  absolute_tolerance : ℚ
  relative_tolerance : ℚ
  safety_factor : ℚ
  min_step_scale : ℚ
  max_step_scale : ℚ
  initial_error : ℚ
  initial_step_size : ℚ
  sudden_reversals_for_sink : ℕ
  use_pi_control : Bool
deriving DecidableEq, Repr

/-- `rkf::PIControlParams`. -/
structure PIControlParams where
  k_i : ℚ
  k_p : ℚ
deriving DecidableEq, Repr

/-- `rkf::RKFStepperState3`. -/
structure RKFStepperState3 where
  config : RKFStepperConfig
  pi_control : PIControlParams
  position : Point3
  direction : Vec3
  distance : ℚ
  step_size : ℚ
  error : ℚ
  n_sudden_reversals : ℕ
  previous_step_size : ℚ
  previous_position : Point3
  previous_direction : Vec3
  intermediate_directions : List Vec3
  previous_step_displacement : Vec3
  previous_step_wrapped : Bool
  next_output_distance : ℚ
deriving DecidableEq, Repr

/-- `rkf::ComputedDirection3`. -/
inductive ComputedDirection3 where
  | Standard (direction : Vec3)
  | WithWrappedPosition (pair : Point3 × Vec3)
deriving DecidableEq, Repr

/-- `rkf::StepError`. -/
inductive StepError where
  | Acceptable (error : ℚ)
  | TooLarge (error : ℚ)
deriving DecidableEq, Repr

/-- `rkf::StepAttempt3`. -/
structure StepAttempt3 where
  next_position : Point3
  next_direction : Vec3
  intermediate_directions : List Vec3
  step_displacement : Vec3
  step_wrapped : Bool
deriving DecidableEq, Repr

/-- Abstract environment bundling everything the generic stepping code of
`rkf.rs` calls into: the interpolator applied to the field
(`interpolator.interp_vector_field(field, ·)`), the grid
(`grid.wrap_point`, `grid.extents()`), the inexact `f64` operations
(`ftr::sqrt`, `ftr::powf`, `Vec3::normalize`) and the three scheme-specific
trait methods implemented by `rkf23`/`rkf45` (which may themselves sample
the field and hence stop or fault; `attempt_step` returning `none` models
an uncaught fault inside the scheme code). -/
structure StepperEnv where
  interp : Point3 → InterpResult3
  wrap_point : Point3 → Option Point3
  grid_extents : Vec3
  normalize : Vec3 → Vec3
  sqrt : ℚ → ℚ
  powf : ℚ → ℚ → ℚ
  attempt_step : RKFStepperState3 → Option (StepperResult StepAttempt3)
  compute_error_deltas : RKFStepperState3 → StepAttempt3 → Vec3
  interpolate_dense_position : RKFStepperState3 → ℚ → Point3

namespace RKFStepperConfig

/-- The `DEFAULT_*` constants of `impl RKFStepperConfig` (exact values of
the `f64` literals in the source). -/
def DEFAULT_DENSE_STEP_SIZE : ℚ := 1 / 100
def DEFAULT_MAX_STEP_ATTEMPTS : ℕ := 16
def DEFAULT_ABSOLUTE_TOLERANCE : ℚ := 1 / 1000000
def DEFAULT_RELATIVE_TOLERANCE : ℚ := 1 / 1000000
def DEFAULT_SAFETY_FACTOR : ℚ := 9 / 10
def DEFAULT_MIN_STEP_SCALE : ℚ := 1 / 5
def DEFAULT_MAX_STEP_SCALE : ℚ := 10
def DEFAULT_INITIAL_ERROR : ℚ := 1 / 10000
def DEFAULT_INITIAL_STEP_SIZE : ℚ := 1 / 10000
def DEFAULT_SUDDEN_REVERSALS_FOR_SINK : ℕ := 3

/-- `RKFStepperConfig::default` — translated literally, including the fact
that the source assigns `DEFAULT_MAX_STEP_SCALE` to the `min_step_scale`
field and `DEFAULT_MIN_STEP_SCALE` to the `max_step_scale` field. -/
def default : RKFStepperConfig where
  dense_step_size := DEFAULT_DENSE_STEP_SIZE
  max_step_attempts := DEFAULT_MAX_STEP_ATTEMPTS
  absolute_tolerance := DEFAULT_ABSOLUTE_TOLERANCE
  relative_tolerance := DEFAULT_RELATIVE_TOLERANCE
  safety_factor := DEFAULT_SAFETY_FACTOR
  min_step_scale := DEFAULT_MAX_STEP_SCALE
  max_step_scale := DEFAULT_MIN_STEP_SCALE
  initial_step_size := DEFAULT_INITIAL_STEP_SIZE
  initial_error := DEFAULT_INITIAL_ERROR
  sudden_reversals_for_sink := DEFAULT_SUDDEN_REVERSALS_FOR_SINK
  use_pi_control := true

/-- `RKFStepperConfig::validate`: the conjunction of the `assert!`
conditions (the Rust function aborts with an uncaught fault when any of
them fails). -/
def validate_ok (c : RKFStepperConfig) : Prop :=
  0 < c.dense_step_size ∧
  0 < c.max_step_attempts ∧
  0 < c.absolute_tolerance ∧
  0 ≤ c.relative_tolerance ∧
  (0 < c.safety_factor ∧ c.safety_factor ≤ 1) ∧
  0 < c.min_step_scale ∧
  c.min_step_scale ≤ c.max_step_scale ∧
  0 < c.initial_step_size ∧
  (0 < c.initial_error ∧ c.initial_error ≤ 1) ∧
  0 < c.sudden_reversals_for_sink

instance (c : RKFStepperConfig) : Decidable c.validate_ok := by
  unfold validate_ok; infer_instance

end RKFStepperConfig

namespace PIControlParams

/-- `PIControlParams::activated`. -/
def activated (scheme_order : ℕ) : PIControlParams :=
  let order : ℚ := scheme_order
  let k_i := (2 / 5) / order
  let k_p := 1 / order - (3 / 4) * k_i
  ⟨k_i, k_p⟩

/-- `PIControlParams::deactivated`. -/
def deactivated (scheme_order : ℕ) : PIControlParams :=
  let order : ℚ := scheme_order
  let k_i := 0
  let k_p := 1 / order
  ⟨k_i, k_p⟩

end PIControlParams

namespace RKFStepper3

open StepperResult StepperInstruction StoppingCause

/-- `RKFStepper3::reset_state` (the `config` and `pi_control` fields are
untouched by the source, which only overwrites the mutable state). -/
def reset_state (s : RKFStepperState3) (position : Point3) (direction : Vec3) :
    RKFStepperState3 :=
  { s with
    position := position
    direction := direction
    distance := 0
    step_size := s.config.initial_step_size
    error := s.config.initial_error
    n_sudden_reversals := 0
    previous_step_size := 0
    previous_position := position
    previous_direction := direction
    intermediate_directions := []
    previous_step_displacement := Vec3.zero
    previous_step_wrapped := false
    next_output_distance := s.config.dense_step_size }

/-- `RKFStepper3::compute_direction`.  Returns `none` exactly where the
source reaches the `panic!("Out of bounds after wrapping.")` expression,
i.e. when the interpolation at a successfully wrapped position is still
out of bounds. -/
def compute_direction (env : StepperEnv) (position : Point3) :
    Option (StepperResult ComputedDirection3) :=
  match env.interp position with
  | InterpResult3.Ok vec =>
      if vec.is_zero then
        some (Stopped Null)
      else
        some (Ok (ComputedDirection3.Standard (env.normalize vec)))
  | InterpResult3.OutOfBounds =>
      match env.wrap_point position with
      | some wrapped_position =>
          match env.interp wrapped_position with
          | InterpResult3.Ok vec =>
              if vec.is_zero then
                some (Stopped Null)
              else
                some (Ok (ComputedDirection3.WithWrappedPosition
                  (wrapped_position, env.normalize vec)))
          | InterpResult3.OutOfBounds => none
      | none => some (Stopped OutOfBounds)

/-- `RKFStepper3::perform_place`. -/
def perform_place (env : StepperEnv) (s : RKFStepperState3) (position : Point3) :
    Option (StepperResult Unit × RKFStepperState3) :=
  match compute_direction env position with
  | none => none
  | some (Ok (ComputedDirection3.Standard direction)) =>
      some (Ok (), reset_state s position direction)
  | some (Ok (ComputedDirection3.WithWrappedPosition (wrapped_position, direction))) =>
      some (Ok (), reset_state s wrapped_position direction)
  | some (Stopped cause) => some (Stopped cause, s)

/-- `RKFStepper3::place_with_callback`.  The pure model of the `FnMut`
callback is a function from the visited position to an instruction; the
returned list records the positions the callback was invoked with. -/
def place_with_callback (env : StepperEnv) (s : RKFStepperState3) (position : Point3)
    (callback : Point3 → StepperInstruction) :
    Option (StepperResult Unit × RKFStepperState3 × List Point3) :=
  match perform_place env s position with
  | none => none
  | some (Ok _, s1) =>
      match callback s1.position with
      | Terminate => some (Stopped StoppedByCallback, s1, [s1.position])
      | Continue => some (Ok (), s1, [s1.position])
  | some (Stopped cause, s1) => some (Stopped cause, s1, [])

/-- `RKFStepper3::compute_error`. -/
def compute_error (env : StepperEnv) (s : RKFStepperState3) (attempt : StepAttempt3) :
    StepError :=
  let error_deltas := env.compute_error_deltas s attempt
  let grid_extents := env.grid_extents
  let errors : Vec3 :=
    ⟨error_deltas.x / (s.config.absolute_tolerance + s.config.relative_tolerance * grid_extents.x),
     error_deltas.y / (s.config.absolute_tolerance + s.config.relative_tolerance * grid_extents.y),
     error_deltas.z / (s.config.absolute_tolerance + s.config.relative_tolerance * grid_extents.z)⟩
  let error := env.sqrt ((1 / 2) * errors.squared_length)
  if error ≤ 1 then
    StepError.Acceptable error
  else
    StepError.TooLarge error

/-- `RKFStepper3::compute_step_size_accepted` (`1e-9` is exact in `f64`
notation and is modelled as the exact rational). -/
def compute_step_size_accepted (env : StepperEnv) (s : RKFStepperState3)
    (new_error : ℚ) : ℚ :=
  let step_scale :=
    if new_error < 1 / 1000000000 then
      s.config.max_step_scale
    else
      let step_scale := s.config.safety_factor * (env.powf s.error s.pi_control.k_i) /
        (env.powf new_error s.pi_control.k_p)
      if step_scale < s.config.min_step_scale then
        s.config.min_step_scale
      else if step_scale > s.config.max_step_scale then
        s.config.max_step_scale
      else
        step_scale
  s.step_size * step_scale

/-- `RKFStepper3::compute_step_size_rejected`. -/
def compute_step_size_rejected (env : StepperEnv) (s : RKFStepperState3)
    (new_error : ℚ) : ℚ :=
  max (s.config.safety_factor / (env.powf new_error s.pi_control.k_p))
    s.config.min_step_scale * s.step_size

/-- `RKFStepper3::check_for_sink`: returns the boolean result together with
the mutated state (the reversal counter is updated in place). -/
def check_for_sink (s : RKFStepperState3) (attempt : StepAttempt3) :
    Bool × RKFStepperState3 :=
  if attempt.next_direction.dot s.direction < 0 then
    let s := { s with n_sudden_reversals := s.n_sudden_reversals + 1 }
    (s.n_sudden_reversals ≥ s.config.sudden_reversals_for_sink, s)
  else
    (false, { s with n_sudden_reversals := 0 })

/-- `RKFStepper3::apply_step_attempt`.  The source comment stresses that
`distance` advances by the step size *prior to* `update_step_size`. -/
def apply_step_attempt (s : RKFStepperState3) (attempt : StepAttempt3) :
    RKFStepperState3 :=
  { s with
    previous_position := s.position
    previous_direction := s.direction
    position := attempt.next_position
    direction := attempt.next_direction
    distance := s.distance + s.step_size
    intermediate_directions := attempt.intermediate_directions
    previous_step_displacement := attempt.step_displacement
    previous_step_wrapped := attempt.step_wrapped }

/-- `RKFStepper3::update_step_size`. -/
def update_step_size (s : RKFStepperState3) (new_step_size new_error : ℚ) :
    RKFStepperState3 :=
  { s with
    previous_step_size := s.step_size
    step_size := new_step_size
    error := new_error }

/-- The `while attempts < max_step_attempts` loop of
`RKFStepper3::perform_step`, with the loop condition realised through a
fuel argument (`fuel` iterations remain; the top-level call passes
`max_step_attempts` so that `attempts + fuel = max_step_attempts` holds
throughout, making the fuel-0 branch coincide with the loop condition
turning false).  The final value of the local `attempts` counter is
returned alongside the result and the state; `none` propagates a fault
from the scheme-specific `attempt_step`. -/
def perform_step_go (env : StepperEnv) (s : RKFStepperState3)
    (attempts : ℕ) : ℕ → Option (StepperResult Unit × RKFStepperState3 × ℕ)
  | 0 =>
      some (if attempts < s.config.max_step_attempts then Ok ()
            else Stopped TooManyAttempts, s, attempts)
  | fuel + 1 =>
      match env.attempt_step s with
      | none => none
      | some (Stopped cause) => some (Stopped cause, s, attempts)
      | some (Ok step_attempt) =>
          let attempts := attempts + 1
          match compute_error env s step_attempt with
          | StepError.Acceptable new_error =>
              let new_step_size := compute_step_size_accepted env s new_error
              -- Don't increase step size if the previous attempt was rejected
              let new_step_size :=
                if attempts > 1 ∧ new_step_size > s.step_size then s.step_size
                else new_step_size
              let (sink, s1) := check_for_sink s step_attempt
              if sink then
                some (Stopped Sink, s1, attempts)
              else
                let s2 := apply_step_attempt s1 step_attempt
                let s3 := update_step_size s2 new_step_size new_error
                -- `break`: fall through to the check after the loop
                some (if attempts < s3.config.max_step_attempts then Ok ()
                      else Stopped TooManyAttempts, s3, attempts)
          | StepError.TooLarge new_error =>
              let new_step_size := compute_step_size_rejected env s new_error
              let s1 := update_step_size s new_step_size new_error
              perform_step_go env s1 attempts fuel

/-- `RKFStepper3::perform_step`. -/
def perform_step (env : StepperEnv) (s : RKFStepperState3) :
    Option (StepperResult Unit × RKFStepperState3 × ℕ) :=
  perform_step_go env s 0 s.config.max_step_attempts

/-- `RKFStepper3::step_with_callback`. -/
def step_with_callback (env : StepperEnv) (s : RKFStepperState3)
    (callback : Point3 → StepperInstruction) :
    Option (StepperResult Unit × RKFStepperState3 × List Point3) :=
  match perform_step env s with
  | none => none
  | some (Ok _, s1, _) =>
      match callback s1.position with
      | Terminate => some (Stopped StoppedByCallback, s1, [s1.position])
      | Continue => some (Ok (), s1, [s1.position])
  | some (Stopped cause, s1, _) => some (Stopped cause, s1, [])

/-- The `loop` inside `RKFStepper3::compute_dense_output`, which emits a
dense-output position at `next_output_distance`, advances it by
`dense_step_size` and repeats while it does not exceed `distance`.  The
returned list records (emission distance, emitted position) for every
position passed to the callback, in order; the rational result is the
final value of the local `next_output_distance`.  The loop always runs at
least once (the caller enters it only when
`next_output_distance ≤ distance`); fuel exhaustion (first branch) is
unreachable for the fuel chosen by `compute_dense_output` whenever
`dense_step_size > 0`. -/
def dense_go (env : StepperEnv) (s : RKFStepperState3)
    (callback : Point3 → StepperInstruction) :
    ℚ → ℕ → StepperResult Unit × ℚ × List (ℚ × Point3)
  | next_output_distance, 0 => (Ok (), next_output_distance, [])
  | next_output_distance, fuel + 1 =>
      let previous_distance := s.distance - s.previous_step_size
      let fraction := (next_output_distance - previous_distance) / s.previous_step_size
      let output_position := env.interpolate_dense_position s fraction
      match callback output_position with
      | Terminate =>
          (Stopped StoppedByCallback, next_output_distance,
           [(next_output_distance, output_position)])
      | Continue =>
          let next2 := next_output_distance + s.config.dense_step_size
          if next2 > s.distance then
            (Ok (), next2, [(next_output_distance, output_position)])
          else
            let (res, next_final, emitted) := dense_go env s callback next2 fuel
            (res, next_final, (next_output_distance, output_position) :: emitted)

/-- `RKFStepper3::compute_dense_output`.  On `Terminate` the source
returns before the final write-back, so `next_output_distance` keeps its
old value in the stopped case; otherwise the final loop value is written
back (in the no-emission case that is the unchanged old value). -/
def compute_dense_output (env : StepperEnv) (s : RKFStepperState3)
    (callback : Point3 → StepperInstruction) :
    StepperResult Unit × RKFStepperState3 × List (ℚ × Point3) :=
  if s.next_output_distance ≤ s.distance then
    let fuel := (⌊(s.distance - s.next_output_distance) / s.config.dense_step_size⌋ + 1).toNat
    match dense_go env s callback s.next_output_distance fuel with
    | (Ok _, next_final, emitted) =>
        (Ok (), { s with next_output_distance := next_final }, emitted)
    | (Stopped cause, _, emitted) => (Stopped cause, s, emitted)
  else
    (Ok (), s, [])

/-- `RKFStepper3::step_with_callback_dense_output`. -/
def step_with_callback_dense_output (env : StepperEnv) (s : RKFStepperState3)
    (callback : Point3 → StepperInstruction) :
    Option (StepperResult Unit × RKFStepperState3 × List (ℚ × Point3)) :=
  match perform_step env s with
  | none => none
  | some (Ok _, s1, _) => some (compute_dense_output env s1 callback)
  | some (Stopped cause, s1, _) => some (Stopped cause, s1, [])

/-- The tracing driver's stepping loop (`field_line.rs` repeatedly invokes
the stepper until a `Stopped` result), bounded by an explicit number of
step calls; emission records of successive calls are concatenated in
order. -/
def run_dense_steps (env : StepperEnv) (callback : Point3 → StepperInstruction) :
    RKFStepperState3 → ℕ →
    Option (StepperResult Unit × RKFStepperState3 × List (ℚ × Point3))
  | s, 0 => some (Ok (), s, [])
  | s, n + 1 =>
      match step_with_callback_dense_output env s callback with
      | none => none
      | some (Ok _, s1, emitted) =>
          match run_dense_steps env callback s1 n with
          | none => none
          | some (res, s2, emitted2) => some (res, s2, emitted ++ emitted2)
      | some (Stopped cause, s1, emitted) => some (Stopped cause, s1, emitted)

/-- Repeated invocation of `perform_step` (the driver loop specialised to
non-dense stepping), stopping at the first non-`Ok` result. -/
def run_steps (env : StepperEnv) :
    RKFStepperState3 → ℕ → Option (StepperResult Unit × RKFStepperState3)
  | s, 0 => some (Ok (), s)
  | s, n + 1 =>
      match perform_step env s with
      | none => none
      | some (Ok _, s1, _) => run_steps env s1 n
      | some (Stopped cause, s1, _) => some (Stopped cause, s1)

end RKFStepper3

/-! ## Concrete instances used for counterexamples and witnesses -/

/-- A small valid configuration (passes `validate_ok`): unit dense step,
two attempts allowed, unit initial step size. -/
def cfgBase : RKFStepperConfig where
  dense_step_size := 1
  max_step_attempts := 2
  absolute_tolerance := 1
  relative_tolerance := 0
  safety_factor := 9 / 10
  min_step_scale := 1 / 5
  max_step_scale := 10
  initial_error := 1 / 10000
  initial_step_size := 1
  sudden_reversals_for_sink := 3
  use_pi_control := true

/-- A freshly placed stepper state for a configuration `c`: exactly the
fields `reset_state` sets, at position `(0,0,0)` with direction
`(1,0,0)`. -/
def mkState (c : RKFStepperConfig) : RKFStepperState3 where
  config := c
  pi_control := ⟨0, 1⟩
  position := ⟨0, 0, 0⟩
  direction := ⟨1, 0, 0⟩
  distance := 0
  step_size := c.initial_step_size
  error := c.initial_error
  n_sudden_reversals := 0
  previous_step_size := 0
  previous_position := ⟨0, 0, 0⟩
  previous_direction := ⟨1, 0, 0⟩
  intermediate_directions := []
  previous_step_displacement := Vec3.zero
  previous_step_wrapped := false
  next_output_distance := c.dense_step_size

/-- Environment for a uniform in-bounds field: every sample succeeds with
the nonzero vector `(1,0,0)`, every trial step is accepted with error
zero and keeps position and direction unchanged. -/
def envAcc : StepperEnv where
  interp := fun _ => InterpResult3.Ok ⟨1, 0, 0⟩
  wrap_point := fun _ => none
  grid_extents := ⟨1, 1, 1⟩
  normalize := id
  sqrt := id
  powf := fun _ _ => 1
  attempt_step := fun s =>
    some (StepperResult.Ok ⟨s.position, s.direction, [], Vec3.zero, false⟩)
  compute_error_deltas := fun _ _ => Vec3.zero
  interpolate_dense_position := fun _ _ => ⟨0, 0, 0⟩

/-- Environment in which every sample is out of bounds while boundary
wrapping claims to succeed (returning the position unchanged): the sample
at the wrapped position is then still out of bounds. -/
def envBad : StepperEnv where
  interp := fun _ => InterpResult3.OutOfBounds
  wrap_point := fun p => some p
  grid_extents := ⟨1, 1, 1⟩
  normalize := id
  sqrt := id
  powf := fun _ _ => 1
  attempt_step := fun _ => none
  compute_error_deltas := fun _ _ => Vec3.zero
  interpolate_dense_position := fun _ _ => ⟨0, 0, 0⟩

/-- Environment in which the point `(2,0,0)` lies outside the domain but
wraps to the in-bounds point `(0,0,0)`, where the field is `(1,0,0)`. -/
def envWrap : StepperEnv where
  interp := fun p =>
    if p = ⟨2, 0, 0⟩ then InterpResult3.OutOfBounds else InterpResult3.Ok ⟨1, 0, 0⟩
  wrap_point := fun p => if p = ⟨2, 0, 0⟩ then some ⟨0, 0, 0⟩ else none
  grid_extents := ⟨1, 1, 1⟩
  normalize := id
  sqrt := id
  powf := fun _ _ => 1
  attempt_step := fun s =>
    some (StepperResult.Ok ⟨s.position, s.direction, [], Vec3.zero, false⟩)
  compute_error_deltas := fun _ _ => Vec3.zero
  interpolate_dense_position := fun _ _ => ⟨0, 0, 0⟩

/-! ## Claim theorems -/

open RKFStepper3 StepperResult StepperInstruction StoppingCause

/-- State with a budget of exactly one step attempt, otherwise `cfgBase`. -/
def sC1 : RKFStepperState3 := mkState { cfgBase with max_step_attempts := 1 }

/-- C1: the claim fails on the code.  With `max_step_attempts = 1` and a
field for which the very first trial step is accepted (error 0), the
accepted step is committed — `distance` advances from 0 to 1 by the used
step size, and the step size is updated — yet `perform_step` reports
`Stopped(TooManyAttempts)`, because the `break` on the last allowed
attempt leaves `attempts = max_step_attempts`, which the check after the
loop cannot distinguish from exhaustion.  So a trial step accepted on the
very last allowed attempt does not yield `Ok`, and `TooManyAttempts` can
be returned with position/distance state mutated by a committed step. -/
theorem C1_accepted_on_last_attempt_reports_exhaustion :
    (perform_step envAcc sC1).map (fun r => (r.1, (r.2.1).distance, r.2.2)) =
      some (Stopped TooManyAttempts, 1, 1) ∧
    sC1.distance = 0 ∧ sC1.config.max_step_attempts = 1 := by
  refine ⟨?_, rfl, rfl⟩
  norm_num [perform_step, perform_step_go, compute_error, compute_step_size_accepted,
    check_for_sink, apply_step_attempt, update_step_size, envAcc, sC1, mkState, cfgBase,
    Vec3.squared_length, Vec3.dot, Vec3.zero, Vec3.is_zero]

/-- C2: the claim fails on the code.  `RKFStepperConfig::default()`
assigns the documented maximum step scale (10) to `min_step_scale` and
the documented minimum (0.2) to `max_step_scale`, so the produced
configuration has `max_step_scale < min_step_scale` and violates the
`validate` assertion `max_step_scale ≥ min_step_scale`. -/
theorem C2_default_config_swaps_step_scales :
    RKFStepperConfig.default.min_step_scale = 10 ∧
    RKFStepperConfig.default.max_step_scale = 1 / 5 ∧
    RKFStepperConfig.default.max_step_scale < RKFStepperConfig.default.min_step_scale ∧
    ¬ RKFStepperConfig.default.validate_ok := by
  refine ⟨rfl, rfl, ?_, fun h => ?_⟩
  · norm_num [RKFStepperConfig.default, RKFStepperConfig.DEFAULT_MIN_STEP_SCALE,
      RKFStepperConfig.DEFAULT_MAX_STEP_SCALE]
  · have h7 := h.2.2.2.2.2.2.1
    norm_num [RKFStepperConfig.default, RKFStepperConfig.DEFAULT_MIN_STEP_SCALE,
      RKFStepperConfig.DEFAULT_MAX_STEP_SCALE] at h7

/-- C3 counterexample: for a position whose boundary-wrapped equivalent
still fails to sample in bounds, `compute_direction` reaches the
`panic!("Out of bounds after wrapping.")` expression (modelled as `none`),
and `place_with_callback` therefore terminates with an uncaught fault
rather than a typed `StepperResult`. -/
theorem C3_counterexample_wrap_still_out_of_bounds :
    compute_direction envBad ⟨0, 0, 0⟩ = none ∧
    place_with_callback envBad (mkState cfgBase) ⟨0, 0, 0⟩ (fun _ => Continue) = none := by
  refine ⟨rfl, ?_⟩
  simp [place_with_callback, perform_place, compute_direction, envBad]

/-- Helper: under a wrap-consistent environment (sampling at a
successfully wrapped position is in bounds, which is the contract
`grid.wrap_point` is trusted for at the `panic!` site),
`compute_direction` never faults. -/
theorem compute_direction_isSome (env : StepperEnv)
    (hwrap : ∀ p q, env.wrap_point p = some q → env.interp q ≠ InterpResult3.OutOfBounds)
    (p : Point3) : (compute_direction env p).isSome := by
  unfold compute_direction
  split
  · split <;> rfl
  · split
    · split
      · split <;> rfl
      · rename_i q hw _ hq
        exact absurd hq (hwrap p q hw)
    · rfl

/-- Helper: the retry loop of `perform_step` never faults when the
scheme-specific `attempt_step` never faults. -/
theorem perform_step_go_isSome (env : StepperEnv)
    (hattempt : ∀ s, env.attempt_step s ≠ none) :
    ∀ (fuel : ℕ) (s : RKFStepperState3) (attempts : ℕ),
      (perform_step_go env s attempts fuel).isSome := by
  intro fuel
  induction fuel with
  | zero => intro s attempts; rfl
  | succ fuel ih =>
      intro s attempts
      unfold perform_step_go
      cases ha : env.attempt_step s with
      | none => exact absurd ha (hattempt s)
      | some r =>
          cases r with
          | Stopped cause => rfl
          | Ok step_attempt =>
              dsimp only
              cases compute_error env s step_attempt with
              | Acceptable new_error =>
                  dsimp only
                  split <;> rfl
              | TooLarge new_error => exact ih _ _

/-- C3 (amended): for every field, interpolator and position the place and
step operations return a typed `StepperResult` and never fault, *provided*
sampling at a successfully boundary-wrapped position is in bounds and the
scheme's trial-step evaluation does not fault; for a position whose
wrapped equivalent still fails to sample in bounds the code instead
reaches an explicit `panic!` (see the counterexample). -/
theorem C3_place_and_step_return_typed_results (env : StepperEnv)
    (hwrap : ∀ p q, env.wrap_point p = some q → env.interp q ≠ InterpResult3.OutOfBounds)
    (hattempt : ∀ s, env.attempt_step s ≠ none) :
    (∀ s p cb, (place_with_callback env s p cb).isSome) ∧
    (∀ s cb, (step_with_callback env s cb).isSome) ∧
    (∀ s cb, (step_with_callback_dense_output env s cb).isSome) := by
  have hdir := compute_direction_isSome env hwrap
  have hstep : ∀ s : RKFStepperState3, (perform_step env s).isSome :=
    fun s => perform_step_go_isSome env hattempt _ s 0
  refine ⟨fun s p cb => ?_, fun s cb => ?_, fun s cb => ?_⟩
  · unfold place_with_callback perform_place
    obtain ⟨d, hd⟩ := Option.isSome_iff_exists.mp (hdir p)
    rw [hd]
    rcases d with d | cause
    · rcases d with direction | ⟨wrapped, direction⟩ <;> dsimp only <;> split <;> rfl
    · rfl
  · unfold step_with_callback
    obtain ⟨⟨res, s1, att⟩, hr⟩ := Option.isSome_iff_exists.mp (hstep s)
    rw [hr]
    rcases res with r | cause
    · dsimp only; split <;> rfl
    · rfl
  · unfold step_with_callback_dense_output
    obtain ⟨⟨res, s1, att⟩, hr⟩ := Option.isSome_iff_exists.mp (hstep s)
    rw [hr]
    rcases res with r | cause <;> rfl

/-- Witness for C3: the amended theorem applied to the concrete
environment `envAcc` and concrete states. -/
theorem C3_witness :
    (place_with_callback envAcc (mkState cfgBase) ⟨0, 0, 0⟩ (fun _ => Continue)).isSome ∧
    (step_with_callback envAcc (mkState cfgBase) (fun _ => Continue)).isSome ∧
    (step_with_callback_dense_output envAcc (mkState cfgBase) (fun _ => Continue)).isSome := by
  have h := C3_place_and_step_return_typed_results envAcc
    (fun p q hpq => by simp [envAcc] at hpq)
    (fun s => by simp [envAcc])
  exact ⟨h.1 _ _ _, h.2.1 _ _, h.2.2 _ _⟩

/-- C9 counterexample: placing at the out-of-bounds position `(2,0,0)`,
which wraps to the in-bounds position `(0,0,0)`, succeeds — but the
callback is invoked with the wrapped position `(0,0,0)`, not with the
start position `(2,0,0)` that was passed to `place`. -/
theorem C9_counterexample_callback_gets_wrapped_position :
    envWrap.interp ⟨2, 0, 0⟩ = InterpResult3.OutOfBounds ∧
    envWrap.wrap_point ⟨2, 0, 0⟩ = some ⟨0, 0, 0⟩ ∧
    (place_with_callback envWrap (mkState cfgBase) ⟨2, 0, 0⟩ (fun _ => Continue)).map
        (fun r => (r.1, r.2.2)) =
      some (Ok (), [(⟨0, 0, 0⟩ : Point3)]) ∧
    (⟨0, 0, 0⟩ : Point3) ≠ ⟨2, 0, 0⟩ := by
  refine ⟨rfl, rfl, ?_, by decide⟩
  simp [place_with_callback, perform_place, compute_direction, envWrap, reset_state,
    Vec3.is_zero]

/-- C9 (amended): full behaviour of `place_with_callback` — zero sampled
field yields `Stopped(Null)` (directly or after wrapping); an
out-of-bounds position gets exactly one boundary-wrap attempt and yields
`Stopped(OutOfBounds)` when no wrapped equivalent exists; on successful
placement the callback is invoked exactly once with the *placed* position
(the start position itself, or its wrapped equivalent when wrapping
occurred), and a `Terminate` instruction yields
`Stopped(StoppedByCallback)` even though the state was reset and
placed. -/
theorem C9_place_behaviour (env : StepperEnv) (s : RKFStepperState3)
    (p : Point3) (cb : Point3 → StepperInstruction) :
    (∀ v, env.interp p = InterpResult3.Ok v → v.is_zero = true →
        place_with_callback env s p cb = some (Stopped Null, s, [])) ∧
    (env.interp p = InterpResult3.OutOfBounds → env.wrap_point p = none →
        place_with_callback env s p cb = some (Stopped OutOfBounds, s, [])) ∧
    (∀ v, env.interp p = InterpResult3.Ok v → v.is_zero = false →
        place_with_callback env s p cb =
          some (match cb p with
            | Terminate => (Stopped StoppedByCallback, reset_state s p (env.normalize v), [p])
            | Continue => (Ok (), reset_state s p (env.normalize v), [p]))) ∧
    (∀ q v, env.interp p = InterpResult3.OutOfBounds → env.wrap_point p = some q →
        env.interp q = InterpResult3.Ok v → v.is_zero = true →
        place_with_callback env s p cb = some (Stopped Null, s, [])) ∧
    (∀ q v, env.interp p = InterpResult3.OutOfBounds → env.wrap_point p = some q →
        env.interp q = InterpResult3.Ok v → v.is_zero = false →
        place_with_callback env s p cb =
          some (match cb q with
            | Terminate => (Stopped StoppedByCallback, reset_state s q (env.normalize v), [q])
            | Continue => (Ok (), reset_state s q (env.normalize v), [q]))) := by
  refine ⟨fun v hv hz => ?_, fun hoob hw => ?_, fun v hv hz => ?_,
    fun q v hoob hw hv hz => ?_, fun q v hoob hw hv hz => ?_⟩
  · simp [place_with_callback, perform_place, compute_direction, hv, hz]
  · simp [place_with_callback, perform_place, compute_direction, hoob, hw]
  · have hpos : (reset_state s p (env.normalize v)).position = p := rfl
    simp only [place_with_callback, perform_place, compute_direction, hv, hz,
      Bool.false_eq_true, if_false]
    cases hc : cb p <;> simp [hpos, hc]
  · simp [place_with_callback, perform_place, compute_direction, hoob, hw, hv, hz]
  · have hpos : (reset_state s q (env.normalize v)).position = q := rfl
    simp only [place_with_callback, perform_place, compute_direction, hoob, hw, hv, hz,
      Bool.false_eq_true, if_false]
    cases hc : cb q <;> simp [hpos, hc]

/-- Witness for C9: the amended theorem applied to `envWrap` at the
out-of-bounds start position `(2,0,0)`, exercising the wrapped-placement
branch. -/
theorem C9_witness :
    place_with_callback envWrap (mkState cfgBase) ⟨2, 0, 0⟩ (fun _ => Continue) =
      some (Ok (), reset_state (mkState cfgBase) ⟨0, 0, 0⟩ (envWrap.normalize ⟨1, 0, 0⟩),
        [(⟨0, 0, 0⟩ : Point3)]) := by
  have h := (C9_place_behaviour envWrap (mkState cfgBase) ⟨2, 0, 0⟩ (fun _ => Continue)).2.2.2.2
    ⟨0, 0, 0⟩ ⟨1, 0, 0⟩ rfl rfl (by simp [envWrap]) (by decide)
  simpa using h

/-- `check_for_sink` only touches the reversal counter. -/
theorem check_for_sink_snd (u : RKFStepperState3) (a : StepAttempt3) :
    (check_for_sink u a).2 =
      { u with n_sudden_reversals :=
          if a.next_direction.dot u.direction < 0 then u.n_sudden_reversals + 1 else 0 } := by
  unfold check_for_sink
  split <;> simp_all

/-- The step size stays strictly positive across a rejected attempt
(`max` with the strictly positive minimum step scale). -/
theorem compute_step_size_rejected_pos (env : StepperEnv) (u : RKFStepperState3)
    (ne : ℚ) (h1 : 0 < u.step_size) (h2 : 0 < u.config.min_step_scale) :
    0 < compute_step_size_rejected env u ne := by
  unfold compute_step_size_rejected
  exact mul_pos (lt_of_lt_of_le h2 (le_max_right _ _)) h1

/-- The step size stays strictly positive across an accepted attempt. -/
theorem compute_step_size_accepted_pos (env : StepperEnv) (u : RKFStepperState3)
    (ne : ℚ) (h1 : 0 < u.step_size) (h2 : 0 < u.config.min_step_scale)
    (h3 : 0 < u.config.max_step_scale) :
    0 < compute_step_size_accepted env u ne := by
  simp only [compute_step_size_accepted]
  apply mul_pos h1
  split
  · exact h3
  · split
    · exact h2
    · split
      · exact h3
      · rename_i hraw _
        exact lt_of_lt_of_le h2 (not_lt.mp hraw)

/-- Characterisation of the retry loop of `perform_step`: a run either
leaves position, direction and distance untouched (the scheme stopped,
the sink test fired, or no trial step was accepted), or commits exactly
one accepted trial step from some intermediate state `u` reached from `s`
by rejected attempts, via `check_for_sink` / `apply_step_attempt` /
`update_step_size` in that order, with the step-size update following the
commit. -/
theorem perform_step_go_spec (env : StepperEnv) :
    ∀ (fuel : ℕ) (s : RKFStepperState3) (attempts : ℕ)
      (res : StepperResult Unit) (t : RKFStepperState3) (att : ℕ),
      perform_step_go env s attempts fuel = some (res, t, att) →
      (attempts ≤ att ∧ t.config = s.config ∧ t.pi_control = s.pi_control ∧
       t.next_output_distance = s.next_output_distance) ∧
      ((t.position = s.position ∧ t.direction = s.direction ∧ t.distance = s.distance ∧
        (0 < s.step_size → 0 < s.config.min_step_scale → 0 < t.step_size)) ∨
       (∃ u a ns ne,
         (u.position = s.position ∧ u.direction = s.direction ∧
          u.distance = s.distance ∧ u.config = s.config ∧ u.pi_control = s.pi_control ∧
          u.next_output_distance = s.next_output_distance) ∧
         (0 < s.step_size → 0 < s.config.min_step_scale → 0 < u.step_size) ∧
         compute_error env u a = StepError.Acceptable ne ∧
         (check_for_sink u a).1 = false ∧
         t = update_step_size (apply_step_attempt (check_for_sink u a).2 a) ns ne ∧
         (ns = compute_step_size_accepted env u ne ∨ ns = u.step_size) ∧
         (1 < att → ns ≤ u.step_size) ∧
         (0 < s.step_size → 0 < s.config.min_step_scale →
           0 < s.config.max_step_scale → 0 < ns) ∧
         attempts < att ∧
         res = if att < s.config.max_step_attempts then Ok () else
           Stopped TooManyAttempts)) := by
  intro fuel
  induction fuel with
  | zero =>
      intro s attempts res t att h
      simp only [perform_step_go, Option.some.injEq, Prod.mk.injEq] at h
      obtain ⟨hres, ht, hatt⟩ := h
      subst ht; subst hatt
      exact ⟨⟨le_refl _, rfl, rfl, rfl⟩, Or.inl ⟨rfl, rfl, rfl, fun h _ => h⟩⟩
  | succ fuel ih =>
      intro s attempts res t att h
      rw [perform_step_go] at h
      cases hat : env.attempt_step s with
      | none => rw [hat] at h; exact absurd h (by simp)
      | some r =>
          rw [hat] at h
          cases r with
          | Stopped cause =>
              simp only [Option.some.injEq, Prod.mk.injEq] at h
              obtain ⟨hres, ht, hatt⟩ := h
              subst ht; subst hatt
              exact ⟨⟨le_refl _, rfl, rfl, rfl⟩, Or.inl ⟨rfl, rfl, rfl, fun h _ => h⟩⟩
          | Ok a =>
              dsimp only at h
              cases herr : compute_error env s a with
              | Acceptable ne =>
                  rw [herr] at h
                  dsimp only at h
                  rcases hcs : check_for_sink s a with ⟨b, u1⟩
                  rw [hcs] at h
                  dsimp only at h
                  cases b with
                  | true =>
                      simp only [if_true, Option.some.injEq, Prod.mk.injEq] at h
                      obtain ⟨hres, ht, hatt⟩ := h
                      subst ht; subst hatt
                      have hu1 : u1 = (check_for_sink s a).2 := by rw [hcs]
                      rw [check_for_sink_snd] at hu1
                      subst hu1
                      exact ⟨⟨Nat.le_succ _, rfl, rfl, rfl⟩,
                        Or.inl ⟨rfl, rfl, rfl, fun h _ => h⟩⟩
                  | false =>
                      simp only [Bool.false_eq_true, if_false, Option.some.injEq,
                        Prod.mk.injEq] at h
                      obtain ⟨hres, ht, hatt⟩ := h
                      subst hatt
                      have hsinkfst : (check_for_sink s a).1 = false := by rw [hcs]
                      have hsinksnd : u1 = (check_for_sink s a).2 := by rw [hcs]
                      refine ⟨⟨Nat.le_succ _, ?_, ?_, ?_⟩, Or.inr
                        ⟨s, a,
                          (if attempts + 1 > 1 ∧
                              compute_step_size_accepted env s ne > s.step_size then
                            s.step_size else compute_step_size_accepted env s ne),
                          ne, ⟨rfl, rfl, rfl, rfl, rfl, rfl⟩,
                          fun h _ => h, herr, hsinkfst, ?_, ?_, ?_, ?_,
                          Nat.lt_succ_of_le (le_refl _), ?_⟩⟩
                      · rw [← ht, hsinksnd, check_for_sink_snd]; rfl
                      · rw [← ht, hsinksnd, check_for_sink_snd]; rfl
                      · rw [← ht, hsinksnd, check_for_sink_snd]; rfl
                      · rw [← ht, hsinksnd]
                      · split
                        · exact Or.inr rfl
                        · exact Or.inl rfl
                      · intro _
                        split
                        · exact le_refl _
                        · rename_i hnot
                          rcases not_and_or.mp hnot with hlt | hle
                          · exact absurd (by omega) hlt
                          · exact not_lt.mp hle
                      · intro hstep hmin hmax
                        split
                        · exact hstep
                        · exact compute_step_size_accepted_pos env s ne hstep hmin hmax
                      · rw [← hres, hsinksnd, check_for_sink_snd]; rfl
              | TooLarge ne =>
                  rw [herr] at h
                  dsimp only at h
                  have H := ih _ _ _ _ _ h
                  set s1 := update_step_size s (compute_step_size_rejected env s ne) ne
                    with hs1
                  have hs1pos : 0 < s.step_size → 0 < s.config.min_step_scale →
                      0 < s1.step_size := fun hp hm =>
                    compute_step_size_rejected_pos env s ne hp hm
                  obtain ⟨⟨hle, hcfg, hpi, hnod⟩, hcase⟩ := H
                  refine ⟨⟨le_trans (Nat.le_succ _) hle, hcfg, hpi, hnod⟩, ?_⟩
                  rcases hcase with ⟨h1, h2, h3, h4⟩ | ⟨u, a1, ns, ne1, hu, hupos,
                    hacc, hsink, ht, hns, hcap, hnspos, hatt2, hres2⟩
                  · exact Or.inl ⟨h1, h2, h3, fun hp hm => h4 (hs1pos hp hm) hm⟩
                  · refine Or.inr ⟨u, a1, ns, ne1, hu, fun hp hm => hupos (hs1pos hp hm) hm,
                      hacc, hsink, ht, hns, hcap,
                      fun hp hm hx => hnspos (hs1pos hp hm) hm hx,
                      lt_of_le_of_lt (Nat.le_succ _) hatt2, hres2⟩

/-- C4: for every call to `perform_step`, either no trial step was
committed and position, direction and distance are unchanged, or the
cumulative distance increased by exactly the step size that was in effect
when the accepted attempt was taken (recorded as `previous_step_size` by
the subsequent `update_step_size`, i.e. the size actually used, not the
newly computed one); that increment is strictly positive, so the distance
strictly increases across accepted steps, and the updated step size stays
positive for the chaining of further accepted steps. -/
theorem C4_distance_advances_by_used_step_size (env : StepperEnv)
    (s : RKFStepperState3) (res : StepperResult Unit) (t : RKFStepperState3) (att : ℕ)
    (h : perform_step env s = some (res, t, att))
    (hstep : 0 < s.step_size) (hmin : 0 < s.config.min_step_scale)
    (hmax : 0 < s.config.max_step_scale) :
    (t.position = s.position ∧ t.direction = s.direction ∧ t.distance = s.distance) ∨
    (t.distance = s.distance + t.previous_step_size ∧ 0 < t.previous_step_size ∧
      s.distance < t.distance ∧ 0 < t.step_size) := by
  rcases (perform_step_go_spec env _ s 0 res t att h).2 with ⟨h1, h2, h3, _⟩ |
    ⟨u, a, ns, ne, hu, hupos, _, _, ht, _, _, hnspos, _, _⟩
  · exact Or.inl ⟨h1, h2, h3⟩
  · right
    subst ht
    rw [check_for_sink_snd]
    have hud : u.distance = s.distance := hu.2.2.1
    have hups : 0 < u.step_size := hupos hstep hmin
    simp only [update_step_size, apply_step_attempt]
    refine ⟨by rw [hud], hups, ?_, hnspos hstep hmin hmax⟩
    rw [hud]
    linarith

/-- The state after one accepted unit step of `envAcc` from
`mkState cfgBase`. -/
def sAfter : RKFStepperState3 :=
  { mkState cfgBase with
    distance := 1
    step_size := 10
    error := 0
    previous_step_size := 1 }

/-- Concrete evaluation: one `perform_step` call in `envAcc` accepts the
first attempt and commits it. -/
theorem perform_step_envAcc_eval :
    perform_step envAcc (mkState cfgBase) = some (Ok (), sAfter, 1) := by
  norm_num [perform_step, perform_step_go, compute_error, compute_step_size_accepted,
    check_for_sink, apply_step_attempt, update_step_size, envAcc, sAfter, mkState, cfgBase,
    Vec3.squared_length, Vec3.dot, Vec3.zero, Vec3.is_zero]

/-- Witness for C4: the concrete accepted step of
`perform_step_envAcc_eval` advances the distance by the used step size. -/
theorem C4_witness :
    (sAfter.position = (mkState cfgBase).position ∧
     sAfter.direction = (mkState cfgBase).direction ∧
     sAfter.distance = (mkState cfgBase).distance) ∨
    (sAfter.distance = (mkState cfgBase).distance + sAfter.previous_step_size ∧
     0 < sAfter.previous_step_size ∧ (mkState cfgBase).distance < sAfter.distance ∧
     0 < sAfter.step_size) :=
  C4_distance_advances_by_used_step_size envAcc (mkState cfgBase) (Ok ()) sAfter 1
    perform_step_envAcc_eval (by norm_num [mkState, cfgBase])
    (by norm_num [mkState, cfgBase]) (by norm_num [mkState, cfgBase])

/-- C7: for every trial step, the value carried by the classification of
`compute_error` is `sqrt((1/2)·Σᵢ (δᵢ/(absolute_tolerance +
relative_tolerance·extentᵢ))²)` over the three axes, and the trial step is
classified `Acceptable` if and only if this error is ≤ 1 (`TooLarge` if
and only if it exceeds 1). -/
theorem C7_normalized_error_formula (env : StepperEnv) (s : RKFStepperState3)
    (a : StepAttempt3) (e : ℚ)
    (he : e = env.sqrt ((1 / 2) *
      (((env.compute_error_deltas s a).x /
          (s.config.absolute_tolerance + s.config.relative_tolerance * env.grid_extents.x)) ^ 2 +
       ((env.compute_error_deltas s a).y /
          (s.config.absolute_tolerance + s.config.relative_tolerance * env.grid_extents.y)) ^ 2 +
       ((env.compute_error_deltas s a).z /
          (s.config.absolute_tolerance + s.config.relative_tolerance * env.grid_extents.z)) ^ 2))) :
    (compute_error env s a = StepError.Acceptable e ↔ e ≤ 1) ∧
    (compute_error env s a = StepError.TooLarge e ↔ 1 < e) := by
  have heE : compute_error env s a =
      if e ≤ 1 then StepError.Acceptable e else StepError.TooLarge e := by
    simp only [compute_error, Vec3.squared_length]
    have harg : (1 : ℚ) / 2 *
        ((env.compute_error_deltas s a).x /
            (s.config.absolute_tolerance + s.config.relative_tolerance * env.grid_extents.x) *
          ((env.compute_error_deltas s a).x /
            (s.config.absolute_tolerance + s.config.relative_tolerance * env.grid_extents.x)) +
         (env.compute_error_deltas s a).y /
            (s.config.absolute_tolerance + s.config.relative_tolerance * env.grid_extents.y) *
          ((env.compute_error_deltas s a).y /
            (s.config.absolute_tolerance + s.config.relative_tolerance * env.grid_extents.y)) +
         (env.compute_error_deltas s a).z /
            (s.config.absolute_tolerance + s.config.relative_tolerance * env.grid_extents.z) *
          ((env.compute_error_deltas s a).z /
            (s.config.absolute_tolerance + s.config.relative_tolerance * env.grid_extents.z))) =
        (1 / 2) *
          (((env.compute_error_deltas s a).x /
              (s.config.absolute_tolerance + s.config.relative_tolerance * env.grid_extents.x)) ^ 2 +
           ((env.compute_error_deltas s a).y /
              (s.config.absolute_tolerance + s.config.relative_tolerance * env.grid_extents.y)) ^ 2 +
           ((env.compute_error_deltas s a).z /
              (s.config.absolute_tolerance + s.config.relative_tolerance * env.grid_extents.z)) ^ 2) := by
      ring
    rw [harg, ← he]
  rw [heE]
  by_cases h : e ≤ 1
  · rw [if_pos h]
    exact ⟨⟨fun _ => h, fun _ => rfl⟩,
      ⟨fun hcontra => StepError.noConfusion hcontra,
       fun hlt => absurd h (not_le.mpr hlt)⟩⟩
  · rw [if_neg h]
    exact ⟨⟨fun hcontra => StepError.noConfusion hcontra, fun hle => absurd hle h⟩,
      ⟨fun _ => not_le.mp h, fun _ => rfl⟩⟩

/-- A trial-step record at the origin, used by witnesses. -/
def att0 : StepAttempt3 := ⟨⟨0, 0, 0⟩, ⟨1, 0, 0⟩, [], Vec3.zero, false⟩

/-- Witness for C7: the error formula and classification evaluated in
`envAcc`, where the deltas vanish and the error is 0. -/
theorem C7_witness :
    compute_error envAcc (mkState cfgBase) att0 = StepError.Acceptable 0 :=
  ((C7_normalized_error_formula envAcc (mkState cfgBase) att0 0
      (by norm_num [envAcc, mkState, cfgBase, Vec3.zero])).1).mpr (by norm_num)

/-- C8: step-size control on acceptance.  (1) A near-zero error
(`< 1e-9`) is special-cased to the maximum step scale directly.  (2)
Otherwise the next step size is the current step size times the scale
`safety_factor · previous_error^k_i / new_error^k_p` clamped to
`[min_step_scale, max_step_scale]`.  (3) At the `perform_step` level,
when the committed attempt was a retry (`attempts > 1`), the updated step
size never exceeds the step size actually attempted (recorded as
`previous_step_size`). -/
theorem C8_step_size_control :
    (∀ (env : StepperEnv) (s : RKFStepperState3) (ne : ℚ), ne < 1 / 1000000000 →
      compute_step_size_accepted env s ne = s.step_size * s.config.max_step_scale) ∧
    (∀ (env : StepperEnv) (s : RKFStepperState3) (ne : ℚ), ¬ ne < 1 / 1000000000 →
      s.config.min_step_scale ≤ s.config.max_step_scale →
      compute_step_size_accepted env s ne =
        s.step_size *
          (min (max (s.config.safety_factor * env.powf s.error s.pi_control.k_i /
              env.powf ne s.pi_control.k_p) s.config.min_step_scale)
            s.config.max_step_scale)) ∧
    (∀ (env : StepperEnv) (s : RKFStepperState3) (res : StepperResult Unit)
        (t : RKFStepperState3) (att : ℕ),
      perform_step env s = some (res, t, att) → t.distance ≠ s.distance → 1 < att →
      t.step_size ≤ t.previous_step_size) := by
  refine ⟨fun env s ne h => ?_, fun env s ne h hmm => ?_,
    fun env s res t att h hd hatt => ?_⟩
  · simp only [compute_step_size_accepted, if_pos h]
  · simp only [compute_step_size_accepted, if_neg h]
    congr 1
    by_cases h1 : s.config.safety_factor * env.powf s.error s.pi_control.k_i /
        env.powf ne s.pi_control.k_p < s.config.min_step_scale
    · rw [if_pos h1, max_eq_right (le_of_lt h1), min_eq_left hmm]
    · rw [if_neg h1, max_eq_left (not_lt.mp h1)]
      by_cases h2 : s.config.safety_factor * env.powf s.error s.pi_control.k_i /
          env.powf ne s.pi_control.k_p > s.config.max_step_scale
      · rw [if_pos h2, min_eq_right (le_of_lt h2)]
      · rw [if_neg h2, min_eq_left (not_lt.mp h2)]
  · rcases (perform_step_go_spec env _ s 0 res t att h).2 with ⟨_, _, h3, _⟩ |
      ⟨u, a, ns, ne, hu, _, _, _, ht, _, hcap, _, _, _⟩
    · exact absurd h3 hd
    · subst ht
      rw [check_for_sink_snd]
      simpa [update_step_size, apply_step_attempt] using hcap hatt

/-- Configuration allowing three attempts, otherwise `cfgBase`. -/
def cfgRetry : RKFStepperConfig := { cfgBase with max_step_attempts := 3 }

/-- Environment whose error estimate is `2·step_size²` (so the first unit
attempt is rejected and the retried attempt accepted), with `powf`
returning the constant 10. -/
def envRetry : StepperEnv :=
  { envAcc with
    powf := fun _ _ => 10
    compute_error_deltas := fun s _ => ⟨2 * s.step_size, 0, 0⟩ }

/-- The state after `perform_step` in `envRetry`: the first attempt
(step size 1, error 2) is rejected and shrinks the step to 1/5; the second
attempt (error 2/25) is accepted, advancing the distance by 1/5 and
setting the next step size to (1/5)·(9/10) = 9/50. -/
def tRetry : RKFStepperState3 :=
  { mkState cfgRetry with
    distance := 1 / 5
    step_size := 9 / 50
    error := 2 / 25
    previous_step_size := 1 / 5 }

/-- Concrete evaluation of the retry scenario. -/
theorem perform_step_envRetry_eval :
    perform_step envRetry (mkState cfgRetry) = some (Ok (), tRetry, 2) := by
  norm_num [perform_step, perform_step_go, compute_error, compute_step_size_accepted,
    compute_step_size_rejected, check_for_sink, apply_step_attempt, update_step_size,
    envRetry, envAcc, tRetry, mkState, cfgRetry, cfgBase,
    Vec3.squared_length, Vec3.dot, Vec3.zero, Vec3.is_zero]

/-- Witness for C8: the near-zero special case evaluated concretely, and
the retry cap on the concrete retry scenario (committed on attempt 2 with
step size 9/50 ≤ attempted size 1/5). -/
theorem C8_witness :
    compute_step_size_accepted envAcc (mkState cfgBase) 0 =
      (mkState cfgBase).step_size * (mkState cfgBase).config.max_step_scale ∧
    tRetry.step_size ≤ tRetry.previous_step_size :=
  ⟨C8_step_size_control.1 envAcc (mkState cfgBase) 0 (by norm_num),
   C8_step_size_control.2.2 envRetry (mkState cfgRetry) (Ok ()) tRetry 2
     perform_step_envRetry_eval
     (by norm_num [tRetry, mkState, cfgRetry, cfgBase]) (by norm_num)⟩

/-- Negation flips the dot product. -/
theorem Vec3.neg_dot (v w : Vec3) : (Vec3.neg v).dot w = -(v.dot w) := by
  simp only [Vec3.neg, Vec3.dot]
  ring

/-- Negating both arguments preserves the dot product. -/
theorem Vec3.neg_dot_neg (v w : Vec3) : (Vec3.neg v).dot (Vec3.neg w) = v.dot w := by
  simp only [Vec3.neg, Vec3.dot]
  ring

/-- Configuration with sink threshold `n` and `max_step_scale = 1` (so an
accepted zero-error step keeps the unit step size), otherwise `cfgBase`. -/
def cfgSink (n : ℕ) : RKFStepperConfig :=
  { cfgBase with
    sudden_reversals_for_sink := n
    max_step_scale := 1 }

/-- Environment of a synthetic field that reverses direction on every
accepted step (the trial step keeps the position and proposes the negated
direction, with error 0). -/
def envRev : StepperEnv :=
  { envAcc with
    attempt_step := fun s =>
      some (StepperResult.Ok ⟨s.position, s.direction.neg, [], Vec3.zero, false⟩) }

/-- One `perform_step` call in `envRev`: the (always accepted, always
reversing) attempt increments the reversal counter; if it reaches the
threshold `n` the call stops with `Sink` and only the counter changed,
otherwise the reversed step is committed. -/
theorem perform_step_envRev_step (n : ℕ) (t : RKFStepperState3)
    (hc : t.config = cfgSink n) (hdd : 0 < t.direction.dot t.direction) :
    perform_step envRev t =
      if n ≤ t.n_sudden_reversals + 1 then
        some (Stopped Sink, { t with n_sudden_reversals := t.n_sudden_reversals + 1 }, 1)
      else
        some (Ok (), { t with
          direction := t.direction.neg
          distance := t.distance + t.step_size
          error := 0
          n_sudden_reversals := t.n_sudden_reversals + 1
          previous_step_size := t.step_size
          previous_position := t.position
          previous_direction := t.direction
          intermediate_directions := []
          previous_step_displacement := Vec3.zero
          previous_step_wrapped := false }, 1) := by
  have hmax : t.config.max_step_attempts = 1 + 1 := by rw [hc]; rfl
  have herr : compute_error envRev t ⟨t.position, t.direction.neg, [], Vec3.zero, false⟩ =
      StepError.Acceptable 0 := by
    norm_num [compute_error, envRev, envAcc, hc, cfgSink, cfgBase, Vec3.squared_length,
      Vec3.zero]
  have hacc : compute_step_size_accepted envRev t 0 = t.step_size := by
    norm_num [compute_step_size_accepted, hc, cfgSink, cfgBase]
  have hsinkeval : check_for_sink t ⟨t.position, t.direction.neg, [], Vec3.zero, false⟩ =
      (decide (n ≤ t.n_sudden_reversals + 1),
        { t with n_sudden_reversals := t.n_sudden_reversals + 1 }) := by
    have hneg : (Vec3.neg t.direction).dot t.direction < 0 := by
      rw [Vec3.neg_dot]
      exact neg_lt_zero.mpr hdd
    simp [check_for_sink, hneg, hc, cfgSink, cfgBase, GE.ge]
  have hatt : envRev.attempt_step t =
      some (StepperResult.Ok ⟨t.position, t.direction.neg, [], Vec3.zero, false⟩) := rfl
  unfold perform_step
  rw [hmax, perform_step_go, hatt]
  dsimp only
  rw [herr]
  dsimp only
  rw [hacc, hsinkeval]
  dsimp only
  by_cases hs : n ≤ t.n_sudden_reversals + 1
  · simp [hs]
  · rw [if_neg hs]
    simp only [decide_eq_true_eq, hs, if_false, Bool.false_eq_true]
    norm_num [update_step_size, apply_step_attempt, hmax]

/-- Invariant run: as long as the reversal counter stays below the
threshold, every `perform_step` in `envRev` succeeds, incrementing the
counter and advancing the distance by the (constant, unit) step size. -/
theorem run_steps_envRev_aux (n : ℕ) :
    ∀ (j : ℕ) (t : RKFStepperState3), t.config = cfgSink n →
      0 < t.direction.dot t.direction → t.step_size = 1 →
      t.n_sudden_reversals + j < n →
      ∃ u, run_steps envRev t j = some (Ok (), u) ∧
        u.config = cfgSink n ∧ 0 < u.direction.dot u.direction ∧ u.step_size = 1 ∧
        u.n_sudden_reversals = t.n_sudden_reversals + j ∧
        u.distance = t.distance + j ∧ u.position = t.position := by
  intro j
  induction j with
  | zero =>
      intro t h1 h2 h3 _
      exact ⟨t, rfl, h1, h2, h3, rfl, by push_cast; ring, rfl⟩
  | succ j ih =>
      intro t h1 h2 h3 hlt
      have hstep := perform_step_envRev_step n t h1 h2
      rw [if_neg (by omega)] at hstep
      have hrun : run_steps envRev t (j + 1) =
          run_steps envRev ({ t with
            direction := t.direction.neg
            distance := t.distance + t.step_size
            error := 0
            n_sudden_reversals := t.n_sudden_reversals + 1
            previous_step_size := t.step_size
            previous_position := t.position
            previous_direction := t.direction
            intermediate_directions := []
            previous_step_displacement := Vec3.zero
            previous_step_wrapped := false }) j := by
        rw [run_steps, hstep]
      obtain ⟨u, hu, hu1, hu2, hu3, hu4, hu5, hu6⟩ := ih
        ({ t with
          direction := t.direction.neg
          distance := t.distance + t.step_size
          error := 0
          n_sudden_reversals := t.n_sudden_reversals + 1
          previous_step_size := t.step_size
          previous_position := t.position
          previous_direction := t.direction
          intermediate_directions := []
          previous_step_displacement := Vec3.zero
          previous_step_wrapped := false })
        h1 (by simpa [Vec3.neg_dot_neg] using h2) h3 (by simp only; omega)
      refine ⟨u, by rw [hrun, hu], hu1, hu2, hu3, ?_, ?_, hu6⟩
      · simp only at hu4
        omega
      · simp only at hu5
        rw [hu5, h3]
        push_cast
        ring

/-- Appending one more call to a so-far-successful run of `perform_step`
invocations. -/
theorem run_steps_snoc (env : StepperEnv) :
    ∀ (k : ℕ) (s t : RKFStepperState3),
      run_steps env s k = some (Ok (), t) →
      run_steps env s (k + 1) =
        match perform_step env t with
        | none => none
        | some (Ok _, t1, _) => some (Ok (), t1)
        | some (Stopped cause, t1, _) => some (Stopped cause, t1) := by
  intro k
  induction k with
  | zero =>
      intro s t h
      simp only [run_steps, Option.some.injEq, Prod.mk.injEq] at h
      obtain ⟨_, ht⟩ := h
      subst ht
      rw [run_steps]
      cases hp : perform_step env s with
      | none => rfl
      | some r =>
          rcases r with ⟨res, t1, att⟩
          cases res with
          | Ok v => dsimp only; rw [run_steps]
          | Stopped c => rfl
  | succ k ih =>
      intro s t h
      rw [run_steps] at h ⊢
      cases hp : perform_step env s with
      | none => rw [hp] at h; simp at h
      | some r =>
          rw [hp] at h
          rcases r with ⟨res, t1, att⟩
          cases res with
          | Ok v => dsimp only at h ⊢; exact ih t1 t h
          | Stopped c => simp at h

/-- C6: with `sudden_reversals_for_sink = n` (`n ≥ 1`), on the synthetic
always-reversing field `envRev` (every accepted trial step has a
direction whose dot product with the current direction is negative), the
first `n − 1` step calls succeed with the reversal counter equal to the
number of consecutive reversals so far — never fewer than `n` reversals
trigger the sink — and the `n`-th call returns `Stopped(Sink)` (never
more than `n` reversals happen), leaving position, direction and distance
exactly as they were before that call (the sink-triggering attempt is not
committed).  Moreover `check_for_sink` resets the reversal counter to 0
(and reports no sink) on any accepted non-reversing step. -/
theorem C6_sink_on_nth_consecutive_reversal (n : ℕ) (hn : 1 ≤ n) :
    (∀ j, j < n → ∃ u, run_steps envRev (mkState (cfgSink n)) j = some (Ok (), u) ∧
        u.n_sudden_reversals = j) ∧
    (∃ t u, run_steps envRev (mkState (cfgSink n)) (n - 1) = some (Ok (), t) ∧
      run_steps envRev (mkState (cfgSink n)) n = some (Stopped Sink, u) ∧
      u.position = t.position ∧ u.direction = t.direction ∧ u.distance = t.distance ∧
      u.n_sudden_reversals = n) ∧
    (∀ (s : RKFStepperState3) (a : StepAttempt3), 0 ≤ a.next_direction.dot s.direction →
      check_for_sink s a = (false, { s with n_sudden_reversals := 0 })) := by
  have hcfg : (mkState (cfgSink n)).config = cfgSink n := rfl
  have hdot : 0 < (mkState (cfgSink n)).direction.dot (mkState (cfgSink n)).direction := by
    norm_num [mkState, Vec3.dot]
  have hss : (mkState (cfgSink n)).step_size = 1 := rfl
  refine ⟨fun j hj => ?_, ?_, fun s a h => ?_⟩
  · obtain ⟨u, hu, _, _, _, hu4, _, _⟩ :=
      run_steps_envRev_aux n j (mkState (cfgSink n)) hcfg hdot hss
        (by simpa [mkState] using hj)
    exact ⟨u, hu, by simpa [mkState] using hu4⟩
  · obtain ⟨t, ht, ht1, ht2, ht3, ht4, _, _⟩ :=
      run_steps_envRev_aux n (n - 1) (mkState (cfgSink n)) hcfg hdot hss
        (by simp [mkState]; omega)
    have hcount : t.n_sudden_reversals = n - 1 := by
      simpa [mkState] using ht4
    have hstep := perform_step_envRev_step n t ht1 ht2
    rw [if_pos (by omega)] at hstep
    have hsnoc := run_steps_snoc envRev (n - 1) (mkState (cfgSink n)) t ht
    rw [hstep] at hsnoc
    have hn1 : n - 1 + 1 = n := by omega
    rw [hn1] at hsnoc
    exact ⟨t, { t with n_sudden_reversals := t.n_sudden_reversals + 1 }, ht, hsnoc,
      rfl, rfl, rfl, by simp only; omega⟩
  · unfold check_for_sink
    rw [if_neg (not_lt.mpr h)]

/-- Witness for C6: the theorem instantiated at the spec's scenario
`sudden_reversals_for_sink = 3`. -/
theorem C6_witness :
    (∃ u, run_steps envRev (mkState (cfgSink 3)) 2 = some (Ok (), u) ∧
        u.n_sudden_reversals = 2) ∧
    (∃ t u, run_steps envRev (mkState (cfgSink 3)) 2 = some (Ok (), t) ∧
      run_steps envRev (mkState (cfgSink 3)) 3 = some (Stopped Sink, u) ∧
      u.position = t.position ∧ u.direction = t.direction ∧ u.distance = t.distance ∧
      u.n_sudden_reversals = 3) ∧
    check_for_sink (mkState (cfgSink 3)) att0 =
      (false, { mkState (cfgSink 3) with n_sudden_reversals := 0 }) := by
  have h := C6_sink_on_nth_consecutive_reversal 3 (by norm_num)
  exact ⟨h.1 2 (by norm_num), h.2.1,
    h.2.2 (mkState (cfgSink 3)) att0 (by norm_num [att0, mkState, Vec3.dot])⟩

/-- Core lemma on the dense-output emission loop `dense_go`: started at an
output distance `next ≤ distance` with positive spacing and sufficient
fuel, it emits at the consecutive distances `next, next+d, next+2d, …`,
all of them ≤ `distance`; it runs until the next output distance first
exceeds `distance` (returning `Ok` with that value, all emissions having
been answered `Continue`) unless the callback terminates it (returning
`Stopped(StoppedByCallback)` right after some emission answered
`Terminate`). -/
theorem dense_go_spec (env : StepperEnv) (s : RKFStepperState3)
    (cb : Point3 → StepperInstruction) (hd : 0 < s.config.dense_step_size) :
    ∀ (fuel : ℕ) (next : ℚ), next ≤ s.distance →
      (⌊(s.distance - next) / s.config.dense_step_size⌋).toNat + 1 ≤ fuel →
      ∃ m : ℕ, 1 ≤ m ∧
        ((dense_go env s cb next fuel).2.2).map Prod.fst =
          (List.range m).map (fun i : ℕ => next + (i : ℚ) * s.config.dense_step_size) ∧
        (∀ pr ∈ (dense_go env s cb next fuel).2.2, pr.1 ≤ s.distance) ∧
        (((dense_go env s cb next fuel).1 = Ok () ∧
          (dense_go env s cb next fuel).2.1 = next + m * s.config.dense_step_size ∧
          s.distance < next + m * s.config.dense_step_size ∧
          ∀ pr ∈ (dense_go env s cb next fuel).2.2, cb pr.2 = Continue) ∨
         ((dense_go env s cb next fuel).1 = Stopped StoppedByCallback ∧
          ∃ pr ∈ (dense_go env s cb next fuel).2.2, cb pr.2 = Terminate)) := by
  intro fuel
  induction fuel with
  | zero =>
      intro next h1 h2
      exact absurd h2 (by omega)
  | succ fuel ih =>
      intro next hle hfuel
      cases hcb : cb (env.interpolate_dense_position s
          ((next - (s.distance - s.previous_step_size)) / s.previous_step_size)) with
      | Terminate =>
          have hunfold : dense_go env s cb next (fuel + 1) =
              (Stopped StoppedByCallback, next,
                [(next, env.interpolate_dense_position s
                  ((next - (s.distance - s.previous_step_size)) / s.previous_step_size))]) := by
            rw [dense_go]
            dsimp only
            rw [hcb]
          rw [hunfold]
          refine ⟨1, le_refl 1, by rw [show List.range 1 = [0] from rfl]; simp, by simpa using hle,
            Or.inr ⟨rfl, ⟨(next, env.interpolate_dense_position s
              ((next - (s.distance - s.previous_step_size)) / s.previous_step_size)),
              by simp, hcb⟩⟩⟩
      | Continue =>
          by_cases hnext2 : next + s.config.dense_step_size > s.distance
          · have hunfold : dense_go env s cb next (fuel + 1) =
                (Ok (), next + s.config.dense_step_size,
                  [(next, env.interpolate_dense_position s
                    ((next - (s.distance - s.previous_step_size)) / s.previous_step_size))]) := by
              rw [dense_go]
              dsimp only
              rw [hcb]
              dsimp only
              rw [if_pos hnext2]
            rw [hunfold]
            refine ⟨1, le_refl 1, by rw [show List.range 1 = [0] from rfl]; simp, by simpa using hle,
              Or.inl ⟨rfl, by simp, by simpa using hnext2, ?_⟩⟩
            intro pr hpr
            simp only [List.mem_singleton] at hpr
            rw [hpr]
            exact hcb
          · have hle2 : next + s.config.dense_step_size ≤ s.distance := not_lt.mp hnext2
            have hfloor : ⌊(s.distance - (next + s.config.dense_step_size)) /
                  s.config.dense_step_size⌋ =
                ⌊(s.distance - next) / s.config.dense_step_size⌋ - 1 := by
              have harg : (s.distance - (next + s.config.dense_step_size)) /
                    s.config.dense_step_size =
                  (s.distance - next) / s.config.dense_step_size - ((1 : ℤ) : ℚ) := by
                push_cast
                field_simp
                ring
              rw [harg, Int.floor_sub_int]
            have hnn2 : 0 ≤ ⌊(s.distance - (next + s.config.dense_step_size)) /
                s.config.dense_step_size⌋ :=
              Int.floor_nonneg.mpr (div_nonneg (by linarith) hd.le)
            have hfuel2 : (⌊(s.distance - (next + s.config.dense_step_size)) /
                s.config.dense_step_size⌋).toNat + 1 ≤ fuel := by
              omega
            obtain ⟨m, hm1, hmap, hmem, hcase⟩ := ih (next + s.config.dense_step_size)
              hle2 hfuel2
            rcases hgo : dense_go env s cb (next + s.config.dense_step_size) fuel with
              ⟨res1, nf1, em1⟩
            rw [hgo] at hmap hmem hcase
            dsimp only at hmap hmem hcase
            have hunfold : dense_go env s cb next (fuel + 1) =
                (res1, nf1,
                  (next, env.interpolate_dense_position s
                    ((next - (s.distance - s.previous_step_size)) / s.previous_step_size))
                  :: em1) := by
              rw [dense_go]
              dsimp only
              rw [hcb]
              dsimp only
              rw [if_neg hnext2, hgo]
            rw [hunfold]
            have hshift : (List.range (m + 1)).map
                  (fun i : ℕ => next + (i : ℚ) * s.config.dense_step_size) =
                next :: (List.range m).map
                  (fun i : ℕ => next + s.config.dense_step_size + (i : ℚ) * s.config.dense_step_size) := by
              rw [List.range_succ_eq_map, List.map_cons, List.map_map]
              refine congrArg₂ _ (by norm_num) (List.map_congr_left ?_)
              intro i _
              simp only [Function.comp_apply, Nat.succ_eq_add_one]
              push_cast
              ring
            refine ⟨m + 1, by omega, ?_, ?_, ?_⟩
            · simp only [List.map_cons, hmap, hshift]
            · intro pr hpr
              rcases List.mem_cons.mp hpr with hpr | hpr
              · rw [hpr]; exact hle
              · exact hmem pr hpr
            · rcases hcase with ⟨hres, hnf, hgt, hcont⟩ | ⟨hres, pr, hprmem, hprterm⟩
              · refine Or.inl ⟨hres, ?_, ?_, ?_⟩
                · dsimp only
                  rw [hnf]
                  push_cast
                  ring
                · dsimp only at hgt ⊢
                  push_cast
                  linarith
                · intro pr hpr
                  rcases List.mem_cons.mp hpr with hpr | hpr
                  · rw [hpr]; exact hcb
                  · exact hcont pr hpr
              · exact Or.inr ⟨hres, pr, List.mem_cons_of_mem _ hprmem, hprterm⟩

/-- Characterisation of one `compute_dense_output` call from a state whose
`next_output_distance` is the `k`-th multiple of `dense_step_size`: the
emissions are exactly the consecutive multiples `k·d, (k+1)·d, …` that do
not exceed `distance` (none at all when `distance` is still below the next
output distance, and at least one otherwise unless the callback cuts the
loop short); on `Ok` the state's `next_output_distance` advances to the
`(k+m)`-th multiple, the first one beyond `distance`, and all emissions
were answered `Continue`; on a `Terminate` answer the call returns
`Stopped(StoppedByCallback)` with the state unchanged. -/
theorem compute_dense_output_spec (env : StepperEnv) (s : RKFStepperState3)
    (cb : Point3 → StepperInstruction) (k : ℕ)
    (hd : 0 < s.config.dense_step_size)
    (hnext : s.next_output_distance = (k : ℚ) * s.config.dense_step_size) :
    ∃ m : ℕ,
      (s.next_output_distance ≤ s.distance → 1 ≤ m) ∧
      ((compute_dense_output env s cb).2.2).map Prod.fst =
        (List.range m).map (fun i : ℕ => ((k + i : ℕ) : ℚ) * s.config.dense_step_size) ∧
      (∀ pr ∈ (compute_dense_output env s cb).2.2, pr.1 ≤ s.distance) ∧
      (s.distance < s.next_output_distance → (compute_dense_output env s cb).2.2 = []) ∧
      (((compute_dense_output env s cb).1 = Ok () ∧
        (compute_dense_output env s cb).2.1 =
          { s with next_output_distance :=
              ((k + m : ℕ) : ℚ) * s.config.dense_step_size } ∧
        s.distance < ((k + m : ℕ) : ℚ) * s.config.dense_step_size ∧
        (∀ pr ∈ (compute_dense_output env s cb).2.2, cb pr.2 = Continue)) ∨
       ((compute_dense_output env s cb).1 = Stopped StoppedByCallback ∧
        (compute_dense_output env s cb).2.1 = s ∧
        ∃ pr ∈ (compute_dense_output env s cb).2.2, cb pr.2 = Terminate)) := by
  by_cases hcase : s.next_output_distance ≤ s.distance
  · have hnn : 0 ≤ ⌊(s.distance - s.next_output_distance) / s.config.dense_step_size⌋ :=
      Int.floor_nonneg.mpr (div_nonneg (by linarith) hd.le)
    have hfuel : (⌊(s.distance - s.next_output_distance) /
          s.config.dense_step_size⌋).toNat + 1 ≤
        (⌊(s.distance - s.next_output_distance) / s.config.dense_step_size⌋ + 1).toNat := by
      omega
    obtain ⟨m, hm1, hmap, hmem, hcase2⟩ :=
      dense_go_spec env s cb hd _ s.next_output_distance hcase hfuel
    rcases hgo : dense_go env s cb s.next_output_distance
        ((⌊(s.distance - s.next_output_distance) / s.config.dense_step_size⌋ + 1).toNat) with
      ⟨res1, nf1, em1⟩
    rw [hgo] at hmap hmem hcase2
    dsimp only at hmap hmem hcase2
    have hreindex : em1.map Prod.fst =
        (List.range m).map (fun i : ℕ => ((k + i : ℕ) : ℚ) * s.config.dense_step_size) :=
      hmap.trans (List.map_congr_left (fun i _ => by rw [hnext]; push_cast; ring))
    rcases hcase2 with ⟨hres, hnf, hgt, hcont⟩ | ⟨hres, pr, hprm, hprt⟩
    · subst hres
      have hcdo : compute_dense_output env s cb =
          (Ok (), { s with next_output_distance := nf1 }, em1) := by
        unfold compute_dense_output
        rw [if_pos hcase]
        dsimp only
        rw [hgo]
      rw [hcdo]
      refine ⟨m, fun _ => hm1, hreindex, hmem,
        fun hDlt => absurd hDlt (not_lt.mpr hcase), Or.inl ⟨rfl, ?_, ?_, hcont⟩⟩
      · have : nf1 = ((k + m : ℕ) : ℚ) * s.config.dense_step_size := by
          rw [hnf, hnext]
          push_cast
          ring
        rw [this]
      · rw [hnext] at hgt
        push_cast
        linarith
    · subst hres
      have hcdo : compute_dense_output env s cb = (Stopped StoppedByCallback, s, em1) := by
        unfold compute_dense_output
        rw [if_pos hcase]
        dsimp only
        rw [hgo]
      rw [hcdo]
      exact ⟨m, fun _ => hm1, hreindex, hmem,
        fun hDlt => absurd hDlt (not_lt.mpr hcase), Or.inr ⟨rfl, rfl, pr, hprm, hprt⟩⟩
  · have hcdo : compute_dense_output env s cb = (Ok (), s, []) := by
      unfold compute_dense_output
      rw [if_neg hcase]
    rw [hcdo]
    refine ⟨0, fun h => absurd h hcase, by simp, by simp, fun _ => rfl,
      Or.inl ⟨rfl, ?_, ?_, by simp⟩⟩
    · rw [show ((k + 0 : ℕ) : ℚ) = (k : ℚ) by norm_num, ← hnext]
    · rw [show ((k + 0 : ℕ) : ℚ) = (k : ℚ) by norm_num, ← hnext]
      exact not_le.mp hcase

/-- C10: for a dense-output call from a state whose `next_output_distance`
is the `k`-th multiple of `dense_step_size` (as established at placement,
where `reset_state` initialises it to `dense_step_size`, i.e. `k = 1`, and
maintained by every later call) and a callback that never terminates: the
call succeeds, the callback is invoked exactly once per multiple of
`dense_step_size` in `(0, distance]` not yet emitted — that is,
`⌊distance/dense_step_size⌋ + 1 − k` times, which is zero exactly when
`distance` is still below `next_output_distance` — and afterwards
`next_output_distance` is again an exact integer multiple of
`dense_step_size` and strictly greater than the (unchanged) current
distance. -/
theorem C10_dense_output_emission_count (env : StepperEnv) (s : RKFStepperState3)
    (cb : Point3 → StepperInstruction) (k : ℕ)
    (hd : 0 < s.config.dense_step_size)
    (hnext : s.next_output_distance = (k : ℚ) * s.config.dense_step_size)
    (hcb : ∀ p, cb p = Continue) :
    (compute_dense_output env s cb).1 = Ok () ∧
    ((compute_dense_output env s cb).2.2).length =
      (⌊s.distance / s.config.dense_step_size⌋ + 1 - k).toNat ∧
    (s.distance < s.next_output_distance → (compute_dense_output env s cb).2.2 = []) ∧
    (∃ j : ℕ, k ≤ j ∧
      ((compute_dense_output env s cb).2.1).next_output_distance =
        (j : ℚ) * s.config.dense_step_size ∧
      s.distance < ((compute_dense_output env s cb).2.1).next_output_distance ∧
      ((compute_dense_output env s cb).2.1).distance = s.distance) ∧
    (∀ (p : Point3) (v : Vec3) (s1 : RKFStepperState3),
      (reset_state s1 p v).next_output_distance = s1.config.dense_step_size) := by
  obtain ⟨m, hm1, hmap, hmem, hempty, hcase⟩ :=
    compute_dense_output_spec env s cb k hd hnext
  rcases hcase with ⟨hres, hst, hgt, _⟩ | ⟨_, _, pr, _, hprt⟩
  swap
  · exact absurd ((hcb pr.2).symm.trans hprt) (fun h => StepperInstruction.noConfusion h)
  have hlen : ((compute_dense_output env s cb).2.2).length = m := by
    have := congrArg List.length hmap
    simpa using this
  have hcount : m = (⌊s.distance / s.config.dense_step_size⌋ + 1 - k).toNat := by
    rcases Nat.eq_zero_or_pos m with hm0 | hmpos
    · subst hm0
      have hDlt : s.distance < s.next_output_distance := by
        by_contra hcon
        exact absurd (hm1 (not_lt.mp hcon)) (by omega)
      rw [hnext] at hDlt
      have hfl : ⌊s.distance / s.config.dense_step_size⌋ < (k : ℤ) :=
        Int.floor_lt.mpr (by
          rw [div_lt_iff₀ hd]
          push_cast
          linarith)
      omega
    · have hlast : ((k + (m - 1) : ℕ) : ℚ) * s.config.dense_step_size ∈
          ((compute_dense_output env s cb).2.2).map Prod.fst := by
        rw [hmap]
        exact List.mem_map_of_mem _ (List.mem_range.mpr (by omega))
      obtain ⟨pr, hprmem, hpreq⟩ := List.mem_map.mp hlast
      have hlastle : ((k + (m - 1) : ℕ) : ℚ) * s.config.dense_step_size ≤ s.distance := by
        rw [← hpreq]
        exact hmem pr hprmem
      have hfl : ⌊s.distance / s.config.dense_step_size⌋ = (k : ℤ) + m - 1 := by
        rw [Int.floor_eq_iff]
        constructor
        · rw [le_div_iff₀ hd]
          push_cast
          push_cast at hlastle
          have hm1' : ((m : ℚ) - 1) = ((m - 1 : ℕ) : ℚ) := by
            push_cast [hmpos]
            ring
          nlinarith [hlastle]
        · rw [div_lt_iff₀ hd]
          push_cast
          push_cast at hgt
          linarith
      omega
  refine ⟨hres, by rw [hlen, hcount], hempty, ⟨k + m, by omega, ?_, ?_, ?_⟩,
    fun p v s1 => rfl⟩
  · rw [hst]
  · rw [hst]
    exact hgt
  · rw [hst]

/-- A state mid-trace: distance 5/2 with unit dense spacing and the next
output distance still at the first multiple. -/
def sDense : RKFStepperState3 :=
  { mkState cfgBase with
    distance := 5 / 2
    previous_step_size := 5 / 2 }

/-- Witness for C10: from `sDense` the dense-output call emits exactly the
two multiples 1 and 2 of the unit dense step size. -/
theorem C10_witness :
    (compute_dense_output envAcc sDense (fun _ => Continue)).1 = Ok () ∧
    ((compute_dense_output envAcc sDense (fun _ => Continue)).2.2).length = 2 := by
  have h := C10_dense_output_emission_count envAcc sDense (fun _ => Continue) 1
    (by norm_num [sDense, mkState, cfgBase])
    (by norm_num [sDense, mkState, cfgBase]) (fun _ => rfl)
  refine ⟨h.1, ?_⟩
  rw [h.2.1]
  norm_num [sDense, mkState, cfgBase]
  rfl

/-- An arithmetic progression of output distances links consecutive
entries by exactly `d`. -/
theorem chain'_arith_range (d : ℚ) :
    ∀ (m k : ℕ), List.Chain' (fun x y => y = x + d)
      ((List.range m).map (fun i : ℕ => ((k + i : ℕ) : ℚ) * d)) := by
  intro m
  induction m with
  | zero => intro k; simp
  | succ m ih =>
      intro k
      rw [List.range_succ_eq_map, List.map_cons, List.map_map]
      have hmap : (List.range m).map ((fun i : ℕ => ((k + i : ℕ) : ℚ) * d) ∘ Nat.succ) =
          (List.range m).map (fun i : ℕ => ((k + 1 + i : ℕ) : ℚ) * d) :=
        List.map_congr_left (fun i _ => by
          simp only [Function.comp_apply]
          push_cast
          ring)
      rw [hmap, List.chain'_cons']
      refine ⟨?_, ih (k + 1)⟩
      intro y hy
      cases m with
      | zero => simp at hy
      | succ m' =>
          rw [List.range_succ_eq_map, List.map_cons, List.head?_cons,
            Option.mem_def, Option.some.injEq] at hy
          rw [← hy]
          push_cast
          ring

/-- The trace-level dense-output emission lemma: running the driver loop
from a state whose `next_output_distance` is the `k`-th multiple of the
dense step size, the collected emission distances of the whole run are the
consecutive multiples `k·d, (k+1)·d, …`, and a `Terminate` answer on any
emission makes the run's result `Stopped(StoppedByCallback)`. -/
theorem run_dense_steps_spec (env : StepperEnv) (cb : Point3 → StepperInstruction) :
    ∀ (n : ℕ) (s : RKFStepperState3) (k : ℕ)
      (r : StepperResult Unit × RKFStepperState3 × List (ℚ × Point3)),
      0 < s.config.dense_step_size →
      s.next_output_distance = (k : ℚ) * s.config.dense_step_size →
      1 ≤ k →
      run_dense_steps env cb s n = some r →
      ∃ m : ℕ,
        (r.2.2).map Prod.fst =
          (List.range m).map (fun i : ℕ => ((k + i : ℕ) : ℚ) * s.config.dense_step_size) ∧
        ((∃ pr ∈ r.2.2, cb pr.2 = Terminate) → r.1 = Stopped StoppedByCallback) := by
  intro n
  induction n with
  | zero =>
      intro s k r hd hnext hk hrun
      simp only [run_dense_steps, Option.some.injEq] at hrun
      refine ⟨0, ?_, ?_⟩
      · rw [← hrun]; simp
      · rw [← hrun]; simp
  | succ n ih =>
      intro s k r hd hnext hk hrun
      rw [run_dense_steps] at hrun
      cases hsw : step_with_callback_dense_output env s cb with
      | none => rw [hsw] at hrun; simp at hrun
      | some q =>
          rw [hsw] at hrun
          rcases q with ⟨res0, s1, em⟩
          rw [step_with_callback_dense_output] at hsw
          cases hps : perform_step env s with
          | none => rw [hps] at hsw; simp at hsw
          | some p =>
              rw [hps] at hsw
              rcases p with ⟨resp, sp, att⟩
              have hpres := (perform_step_go_spec env _ s 0 resp sp att hps).1
              have hcfg : sp.config = s.config := hpres.2.1
              have hnod : sp.next_output_distance = s.next_output_distance := hpres.2.2.2
              cases resp with
              | Stopped cause =>
                  simp only [Option.some.injEq, Prod.mk.injEq] at hsw
                  obtain ⟨hres0, hs1, hem⟩ := hsw
                  subst hem
                  rw [← hres0] at hrun
                  dsimp only at hrun
                  simp only [Option.some.injEq] at hrun
                  refine ⟨0, ?_, ?_⟩
                  · rw [← hrun]; simp
                  · rw [← hrun]; simp
              | Ok v =>
                  simp only [Option.some.injEq] at hsw
                  have hd' : 0 < sp.config.dense_step_size := by rw [hcfg]; exact hd
                  have hnext' : sp.next_output_distance =
                      (k : ℚ) * sp.config.dense_step_size := by
                    rw [hnod, hcfg]; exact hnext
                  obtain ⟨m1, _, hmap1, _, _, hcase1⟩ :=
                    compute_dense_output_spec env sp cb k hd' hnext'
                  rw [hsw] at hcase1 hmap1
                  dsimp only at hcase1 hmap1
                  rcases hcase1 with ⟨hres0, hs1, _, hcont1⟩ | ⟨hres0, hs1, pr, hprm, hprt⟩
                  · subst hres0
                    dsimp only at hrun
                    cases hrec : run_dense_steps env cb s1 n with
                    | none => rw [hrec] at hrun; simp at hrun
                    | some r2 =>
                        rw [hrec] at hrun
                        simp only [Option.some.injEq] at hrun
                        have hs1cfg : s1.config = s.config := by
                          rw [hs1]; exact hcfg
                        have hs1next : s1.next_output_distance =
                            ((k + m1 : ℕ) : ℚ) * s1.config.dense_step_size := by
                          rw [hs1]
                        obtain ⟨m2, hmap2, hterm2⟩ := ih s1 (k + m1) r2
                          (by rw [hs1cfg]; exact hd)
                          hs1next (by omega) hrec
                        refine ⟨m1 + m2, ?_, ?_⟩
                        · rw [← hrun]
                          dsimp only
                          rw [List.map_append, List.range_add, List.map_append,
                            List.map_map]
                          have hm1' : em.map Prod.fst = (List.range m1).map
                              (fun i : ℕ => ((k + i : ℕ) : ℚ) * s.config.dense_step_size) := by
                            rw [hmap1]
                            exact List.map_congr_left (fun i _ => by rw [hcfg])
                          have hm2' : r2.2.2.map Prod.fst = (List.range m2).map
                              ((fun i : ℕ => ((k + i : ℕ) : ℚ) * s.config.dense_step_size) ∘
                                (m1 + ·)) := by
                            rw [hmap2]
                            refine List.map_congr_left (fun i _ => ?_)
                            simp only [Function.comp_apply]
                            rw [hs1cfg]
                            congr 2
                            omega
                          rw [hm1', hm2']
                        · rw [← hrun]
                          dsimp only
                          intro ⟨pr, hprm, hprt⟩
                          rcases List.mem_append.mp hprm with hin | hin
                          · exact absurd ((hcont1 pr hin).symm.trans hprt)
                              (fun h => StepperInstruction.noConfusion h)
                          · exact hterm2 ⟨pr, hin, hprt⟩
                  · subst hres0
                    dsimp only at hrun
                    simp only [Option.some.injEq] at hrun
                    refine ⟨m1, ?_, ?_⟩
                    · rw [← hrun]
                      dsimp only
                      rw [hmap1]
                      exact List.map_congr_left (fun i _ => by rw [hcfg])
                    · intro _
                      rw [← hrun]

/-- C5: within a single trace — a driver run of dense-output steps from a
freshly placed state (where `reset_state` put `next_output_distance` at
`dense_step_size`) — the arc-length distances of the emitted dense-output
positions are strictly increasing and consecutive emission distances
differ by exactly `dense_step_size` (the very first emission, at
`dense_step_size` itself, has no predecessor to constrain); the emitted
positions are exactly those passed to the callback (the run's emission
record), and a `Terminate` instruction from the callback on any of them
makes the trace end with `Stopped(StoppedByCallback)`. -/
theorem C5_dense_emission_distances (env : StepperEnv)
    (cb : Point3 → StepperInstruction) (s : RKFStepperState3) (n : ℕ)
    (r : StepperResult Unit × RKFStepperState3 × List (ℚ × Point3))
    (hd : 0 < s.config.dense_step_size)
    (hplaced : s.next_output_distance = s.config.dense_step_size)
    (hrun : run_dense_steps env cb s n = some r) :
    List.Chain' (fun a b => b.1 = a.1 + s.config.dense_step_size) r.2.2 ∧
    List.Pairwise (fun a b => a.1 < b.1) r.2.2 ∧
    ((∃ pr ∈ r.2.2, cb pr.2 = Terminate) → r.1 = Stopped StoppedByCallback) := by
  have hnext1 : s.next_output_distance = ((1 : ℕ) : ℚ) * s.config.dense_step_size := by
    rw [hplaced]
    norm_num
  obtain ⟨m, hmap, hterm⟩ :=
    run_dense_steps_spec env cb n s 1 r hd hnext1 (le_refl 1) hrun
  refine ⟨?_, ?_, hterm⟩
  · have hch : List.Chain' (fun x y => y = x + s.config.dense_step_size)
        (r.2.2.map Prod.fst) := by
      rw [hmap]
      exact chain'_arith_range s.config.dense_step_size m 1
    exact (List.chain'_map Prod.fst).mp hch
  · have hpw : List.Pairwise (fun x y => x < y) (r.2.2.map Prod.fst) := by
      rw [hmap]
      refine List.pairwise_map.mpr ?_
      refine (List.pairwise_lt_range m).imp ?_
      intro i j hij
      have : ((1 + i : ℕ) : ℚ) < ((1 + j : ℕ) : ℚ) := by
        exact_mod_cast Nat.add_lt_add_left hij 1
      exact mul_lt_mul_of_pos_right this hd
    exact List.pairwise_map.mp hpw

/-- Concrete evaluation of one dense-output driver step in `envAcc`: the
accepted unit step advances the distance to 1 and the dense loop emits
exactly the multiple 1, moving `next_output_distance` to 2. -/
theorem run_dense_envAcc_eval :
    run_dense_steps envAcc (fun _ => Continue) (mkState cfgBase) 1 =
      some (Ok (), { sAfter with next_output_distance := 2 },
        [(1, (⟨0, 0, 0⟩ : Point3))]) := by
  rw [run_dense_steps, step_with_callback_dense_output, perform_step_envAcc_eval]
  dsimp only
  norm_num [compute_dense_output, dense_go, run_dense_steps, sAfter, mkState, cfgBase,
    envAcc]

/-- Witness for C5: the emission record of the concrete one-step trace of
`run_dense_envAcc_eval` satisfies the spacing, monotonicity and
termination guarantees. -/
theorem C5_witness :
    List.Chain' (fun a b => b.1 = a.1 + (mkState cfgBase).config.dense_step_size)
      [((1 : ℚ), (⟨0, 0, 0⟩ : Point3))] ∧
    List.Pairwise (fun a b => a.1 < b.1) [((1 : ℚ), (⟨0, 0, 0⟩ : Point3))] ∧
    ((∃ pr ∈ [((1 : ℚ), (⟨0, 0, 0⟩ : Point3))],
        (fun (_ : Point3) => Continue) pr.2 = Terminate) →
      (Ok () : StepperResult Unit) = Stopped StoppedByCallback) := by
  have h := C5_dense_emission_distances envAcc (fun _ => Continue) (mkState cfgBase) 1
    (Ok (), { sAfter with next_output_distance := 2 }, [(1, (⟨0, 0, 0⟩ : Point3))])
    (by norm_num [mkState, cfgBase]) (by norm_num [mkState, cfgBase])
    run_dense_envAcc_eval
  exact h

end Bifrost
